import Mathlib

/-!
Verification of the smart-notifier cooldown / buffering state machine
(`src/smart-notifier/src/main.ts`, global-state variant).

The engine state is the four shared maps (`globalCooldowns`,
`globalFaceCooldowns`, `globalPendingNotifications`, `globalProcessing`),
modelled as association lists.  The per-detection decision logic of the
listener callback (lines 844-997) is translated branch by branch, and the
`sendNotification` helper (lines 1008-1044) likewise.  Each step also
produces a list of `Event`s recording lock acquisition/release, state
writes, timer scheduling/cancellation, suspension points (`await`), and
delivery, so that temporal claims about lock spans and write ordering can
be stated over the trace.
-/

namespace SmartNotifier

/-- PERSON_COOLDOWN_MS in the source: 5 minutes. -/
def PERSON_COOLDOWN_MS : Nat := 5 * 60 * 1000

/-- Buffering delay of the generic-notification timer: 10 seconds. -/
def BUFFER_DELAY_MS : Nat := 10000

/-- Value of an entry of `globalCooldowns`: `{ timestamp, label }`. -/
structure CooldownEntry where
  timestamp : Nat
  label : Option String
  deriving Repr, DecidableEq

/-- Value of an entry of `globalPendingNotifications`; the image and
bounding box are irrelevant to the claims, the scheduled fire time of the
timer is kept. -/
structure PendingEntry where
  fireAt : Nat
  deriving Repr, DecidableEq

/-- The four shared maps of the engine. -/
structure EngineState where
  cooldowns : List (String × CooldownEntry)
  faceCooldowns : List (String × Nat)
  pending : List (String × PendingEntry)
  processing : List String
  deriving Repr, DecidableEq

/-- Empty engine state (module load time). -/
def initState : EngineState := ⟨[], [], [], []⟩

/-- Lookup in an association list (`Map.get`). -/
def getKey {β : Type} (k : String) : List (String × β) → Option β
  | [] => none
  | (k', v) :: rest => if k' = k then some v else getKey k rest

/-- Insert or overwrite in an association list (`Map.set`). -/
def setKey {β : Type} (k : String) (v : β) : List (String × β) → List (String × β)
  | [] => [(k, v)]
  | (k', v') :: rest => if k' = k then (k, v) :: rest else (k', v') :: setKey k v rest

/-- Remove a key from an association list (`Map.delete`). -/
def delKey {β : Type} (k : String) : List (String × β) → List (String × β)
  | [] => []
  | (k', v') :: rest => if k' = k then rest else (k', v') :: delKey k rest

/-- Trace events of one handler step.  `suspend` marks an `await`
suspension point; `deliveryStart` marks entry into the asynchronous
delivery section of `sendNotification` (everything from the first `await`
inside its `try`). -/
inductive Event where
  | lockAcquire (pid : String)
  | lockRelease (pid : String)
  | cooldownWrite (pid : String) (ts : Nat) (label : Option String)
  | faceCooldownWrite (label : String) (ts : Nat)
  | timerCancel (pid : String)
  | timerSchedule (pid : String) (fireAt : Nat)
  | deliveryStart (pid : String) (name : String)
  | deliveryEnd (pid : String) (ok : Bool)
  | suspend
  deriving Repr, DecidableEq

/-- Outcome of the decision for one detection. -/
inductive Action where
  | suppress
  | sendNamed (label : String)
  | sendGenericDeferred
  deriving Repr, DecidableEq

/-- JS truthiness of a `string | null` value: `null` and `""` are falsy. -/
def labelFalsy : Option String → Bool
  | none => true
  | some s => s == ""

/-- Negation of `labelFalsy`. -/
def jsTruthy (o : Option String) : Bool := !labelFalsy o

/-- Line 854: `(det.label && det.label !== 'person' && det.label !== 'face') ? det.label : null`. -/
def currentLabel (rawLabel : Option String) : Option String :=
  match rawLabel with
  | none => none
  | some l => if l = "" ∨ l = "person" ∨ l = "face" then none else some l

/-- Lines 1008-1044, `sendNotification(personId, name, imageBuffer,
boundingBox, skipCooldownUpdate)`.  State writes (cooldown when not
skipped, face cooldown when the name is not the generic sentinel
`"Person"`) happen synchronously; the delivery section (createMediaObject
and the notifier call, both awaited, errors caught) follows.  `ok` is
whether the external delivery succeeds; the `catch` swallows a failure. -/
def sendNotification (st : EngineState) (pid name : String) (now : Nat)
    (ok : Bool) (skipCooldownUpdate : Bool) : EngineState × List Event :=
  let entry : CooldownEntry := ⟨now, if name = "Person" then none else some name⟩
  let st1 := if skipCooldownUpdate then st
    else { st with cooldowns := setKey pid entry st.cooldowns }
  let ev1 : List Event := if skipCooldownUpdate then []
    else [Event.cooldownWrite pid now entry.label]
  let st2 := if name = "Person" then st1
    else { st1 with faceCooldowns := setKey name now st1.faceCooldowns }
  let ev2 : List Event := if name = "Person" then []
    else [Event.faceCooldownWrite name now]
  (st2, ev1 ++ ev2 ++
    [Event.deliveryStart pid name, Event.suspend, Event.deliveryEnd pid ok])

/-- Lines 916-942: the tail of the named branch after a pending buffer was
cancelled and the race re-check passed: write the cooldown record
synchronously, then await the send (skipCooldownUpdate = true). -/
def namedSend (st : EngineState) (pid lbl : String) (now : Nat) (ok : Bool)
    (pre : List Event) : EngineState × Action × List Event :=
  let st1 := { st with cooldowns := setKey pid ⟨now, some lbl⟩ st.cooldowns }
  let sent := sendNotification st1 pid lbl now ok true
  (sent.1, Action.sendNamed lbl,
    pre ++ Event.cooldownWrite pid now (some lbl) :: sent.2)

/-- Lines 906-942: named branch of the buffering logic.  Cancel a pending
buffer if present, re-check the cooldown record one more time (suppress
when a record within the window already carries the identical label), then
write and send. -/
def namedTail (st : EngineState) (pid lbl : String) (now : Nat) (ok : Bool) :
    EngineState × Action × List Event :=
  let pending := getKey pid st.pending
  let st1 := if pending.isSome then { st with pending := delKey pid st.pending } else st
  let ev1 : List Event := if pending.isSome then [Event.timerCancel pid] else []
  match getKey pid st1.cooldowns with
  | some fresh =>
    if now - fresh.timestamp < PERSON_COOLDOWN_MS ∧ fresh.label == some lbl then
      (st1, Action.suppress, ev1)
    else
      namedSend st1 pid lbl now ok ev1
  | none => namedSend st1 pid lbl now ok ev1

/-- Lines 943-994: generic branch.  Suppress when already buffering or when
the earlier cooldown read (`lastSeen`, line 876) is within the window;
otherwise schedule the buffer timer and record the pending entry. -/
def genericTail (st : EngineState) (pid : String) (lastSeen : Option CooldownEntry)
    (now : Nat) : EngineState × Action × List Event :=
  if (getKey pid st.pending).isSome then (st, Action.suppress, [])
  else
    let blocked : Bool := match lastSeen with
      | some e => decide (now - e.timestamp < PERSON_COOLDOWN_MS)
      | none => false
    if blocked then (st, Action.suppress, [])
    else
      ({ st with pending := setKey pid ⟨now + BUFFER_DELAY_MS⟩ st.pending },
        Action.sendGenericDeferred, [Event.timerSchedule pid (now + BUFFER_DELAY_MS)])

/-- Lines 879-903: the per-person cooldown gate.  Within the window, only
an upgrade (`currentLabel && !lastSeen.label`) or a label change
(`currentLabel && lastSeen.label && currentLabel !== lastSeen.label`)
passes. -/
def cooldownGateBlocks (cl : Option String) (entry : CooldownEntry) (now : Nat) : Bool :=
  if now - entry.timestamp < PERSON_COOLDOWN_MS then
    let isUpgrade := jsTruthy cl && labelFalsy entry.label
    let isLabelChange := jsTruthy cl && jsTruthy entry.label && cl != entry.label
    !(isUpgrade || isLabelChange)
  else false

/-- Lines 875-994: everything after the face-cooldown check: read
`lastSeen`, apply the cooldown gate, then branch on `currentLabel`. -/
def afterFace (st : EngineState) (pid : String) (cl : Option String) (now : Nat)
    (ok : Bool) : EngineState × Action × List Event :=
  let lastSeen := getKey pid st.cooldowns
  let blocked := match lastSeen with
    | some e => cooldownGateBlocks cl e now
    | none => false
  if blocked then (st, Action.suppress, [])
  else
    match cl with
    | some lbl => namedTail st pid lbl now ok
    | none => genericTail st pid lastSeen now

/-- Lines 865-994: the body inside the processing lock: face-cooldown
check first (trumps personId), then `afterFace`. -/
def lockedBody (st : EngineState) (pid : String) (cl : Option String) (now : Nat)
    (ok : Bool) : EngineState × Action × List Event :=
  match cl with
  | some lbl =>
    match getKey lbl st.faceCooldowns with
    | some t =>
      if now - t < PERSON_COOLDOWN_MS then (st, Action.suppress, [])
      else afterFace st pid cl now ok
    | none => afterFace st pid cl now ok
  | none => afterFace st pid cl now ok

/-- Lines 844-997: the decision for one detection of the ReID response.
If the personId is already being processed, suppress without touching
anything; otherwise acquire the lock, run the body, and release the lock
in the `finally`.  In the named branch the send is awaited inside the
`try`, so the release happens after delivery. -/
def decideNotify (st : EngineState) (pid : String) (rawLabel : Option String)
    (now : Nat) (ok : Bool) : EngineState × Action × List Event :=
  if pid ∈ st.processing then (st, Action.suppress, [])
  else
    let st0 : EngineState := { st with processing := pid :: st.processing }
    let inner := lockedBody st0 pid (currentLabel rawLabel) now ok
    ({ inner.1 with processing := inner.1.processing.erase pid },
      inner.2.1,
      Event.lockAcquire pid :: inner.2.2 ++ [Event.lockRelease pid])

/-- Lines 966-990: the buffer timer callback.  If a cooldown record within
the window appeared while waiting, drop the buffer; otherwise write the
generic cooldown record synchronously, remove the pending entry, and send
the generic notification (not awaited by anyone, lock not involved). -/
def bufferTimerCallback (st : EngineState) (pid : String) (fireNow : Nat)
    (ok : Bool) : EngineState × List Event :=
  match getKey pid st.cooldowns with
  | some fresh =>
    if fireNow - fresh.timestamp < PERSON_COOLDOWN_MS then
      ({ st with pending := delKey pid st.pending }, [])
    else
      let st1 := { st with
        cooldowns := setKey pid ⟨fireNow, none⟩ st.cooldowns,
        pending := delKey pid st.pending }
      let sent := sendNotification st1 pid "Person" fireNow ok true
      (sent.1, Event.cooldownWrite pid fireNow none :: sent.2)
  | none =>
    let st1 := { st with
      cooldowns := setKey pid ⟨fireNow, none⟩ st.cooldowns,
      pending := delKey pid st.pending }
    let sent := sendNotification st1 pid "Person" fireNow ok true
    (sent.1, Event.cooldownWrite pid fireNow none :: sent.2)

/-- A scheduled timer fires only if it was not cancelled: cancellation
(`clearTimeout` plus map delete, always together) removes the pending
entry, and the entry is the aliveness of the timer. -/
def fireBufferIfPending (st : EngineState) (pid : String) (fireNow : Nat)
    (ok : Bool) : EngineState × List Event :=
  if (getKey pid st.pending).isSome then bufferTimerCallback st pid fireNow ok
  else (st, [])

/-- External stimuli of the engine: a detection of the ReID response being
handled, or a buffer timer coming due. -/
inductive SysEvent where
  | detection (pid : String) (rawLabel : Option String) (now : Nat)
  | timerFire (pid : String) (now : Nat)
  deriving Repr, DecidableEq

/-- One system step. -/
def sysStep (st : EngineState) (e : SysEvent) : EngineState × List Event :=
  match e with
  | SysEvent.detection pid raw now =>
    let r := decideNotify st pid raw now true
    (r.1, r.2.2)
  | SysEvent.timerFire pid now => fireBufferIfPending st pid now true

/-- Run a sequence of system steps, concatenating the traces. -/
def runSys (st : EngineState) : List SysEvent → EngineState × List Event
  | [] => (st, [])
  | e :: rest =>
    let r1 := sysStep st e
    let r2 := runSys r1.1 rest
    (r2.1, r1.2 ++ r2.2)

/-- The notifications actually dispatched in a trace. -/
def deliveries (tr : List Event) : List (String × String) :=
  tr.filterMap fun e => match e with
    | Event.deliveryStart pid name => some (pid, name)
    | _ => none

/-- Whether the processing lock for `pid` is held just before position `i`
of a trace. -/
def lockHeldAt (tr : List Event) (pid : String) (i : Nat) : Bool :=
  ((tr.take i).count (Event.lockAcquire pid)) > ((tr.take i).count (Event.lockRelease pid))

/-- Formalisation of the ProcessingLock claim: at every delivery start in
the trace, the lock of the delivered personId is not held. -/
def lockFreeDelivery (tr : List Event) : Prop :=
  ∀ i pid name, tr.get? i = some (Event.deliveryStart pid name) →
    lockHeldAt tr pid i = false


/-- The `currentLabel` of a detection is never the empty string nor the
generic class names. -/
theorem currentLabel_valid {raw : Option String} {l : String}
    (h : currentLabel raw = some l) : l ≠ "" ∧ l ≠ "person" ∧ l ≠ "face" := by
  match raw with
  | none => simp [currentLabel] at h
  | some s =>
    simp only [currentLabel] at h
    split at h
    · exact absurd h (by simp)
    · rename_i hcond
      push_neg at hcond
      obtain ⟨h1, h2, h3⟩ := hcond
      cases h
      exact ⟨h1, h2, h3⟩

/-- The resulting state of `sendNotification` does not depend on whether
the external delivery succeeds (the `catch` only logs). -/
theorem sendNotification_ok_irrel (st : EngineState) (pid name : String) (now : Nat)
    (ok ok' skip : Bool) :
    (sendNotification st pid name now ok skip).1 =
    (sendNotification st pid name now ok' skip).1 := rfl

/-- Every call of `sendNotification` attempts delivery exactly once. -/
theorem sendNotification_deliveries (st : EngineState) (pid name : String) (now : Nat)
    (ok skip : Bool) :
    deliveries (sendNotification st pid name now ok skip).2 = [(pid, name)] := by
  by_cases h : name = "Person" <;> by_cases hs : skip <;>
    simp [sendNotification, h, hs, deliveries]

/-- State and action of `namedTail` do not depend on delivery success. -/
theorem namedTail_ok_irrel (st : EngineState) (pid lbl : String) (now : Nat)
    (ok ok' : Bool) :
    (namedTail st pid lbl now ok).1 = (namedTail st pid lbl now ok').1 ∧
    (namedTail st pid lbl now ok).2.1 = (namedTail st pid lbl now ok').2.1 := by
  by_cases hpend : (getKey pid st.pending).isSome <;>
    simp only [namedTail, hpend] <;>
    split <;> (try split) <;> simp [namedSend, sendNotification]

/-- State and action of `afterFace` do not depend on delivery success. -/
theorem afterFace_ok_irrel (st : EngineState) (pid : String) (cl : Option String)
    (now : Nat) (ok ok' : Bool) :
    (afterFace st pid cl now ok).1 = (afterFace st pid cl now ok').1 ∧
    (afterFace st pid cl now ok).2.1 = (afterFace st pid cl now ok').2.1 := by
  simp only [afterFace]
  split
  · exact ⟨rfl, rfl⟩
  · cases cl with
    | none => exact ⟨rfl, rfl⟩
    | some lbl => exact namedTail_ok_irrel st pid lbl now ok ok'

/-- State and action of `lockedBody` do not depend on delivery success. -/
theorem lockedBody_ok_irrel (st : EngineState) (pid : String) (cl : Option String)
    (now : Nat) (ok ok' : Bool) :
    (lockedBody st pid cl now ok).1 = (lockedBody st pid cl now ok').1 ∧
    (lockedBody st pid cl now ok).2.1 = (lockedBody st pid cl now ok').2.1 := by
  cases cl with
  | none => exact afterFace_ok_irrel st pid none now ok ok'
  | some lbl =>
    simp only [lockedBody]
    cases h : getKey lbl st.faceCooldowns with
    | some t =>
      by_cases hw : now - t < PERSON_COOLDOWN_MS
      · simp [hw]
      · simp only [hw, if_false, if_neg, not_false_iff]
        exact afterFace_ok_irrel st pid (some lbl) now ok ok'
    | none => exact afterFace_ok_irrel st pid (some lbl) now ok ok'

/-- State and action of the whole decision do not depend on delivery
success. -/
theorem decideNotify_ok_irrel (st : EngineState) (pid : String) (raw : Option String)
    (now : Nat) (ok ok' : Bool) :
    (decideNotify st pid raw now ok).1 = (decideNotify st pid raw now ok').1 ∧
    (decideNotify st pid raw now ok).2.1 = (decideNotify st pid raw now ok').2.1 := by
  by_cases hp : pid ∈ st.processing
  · simp [decideNotify, hp]
  · have h := lockedBody_ok_irrel { st with processing := pid :: st.processing }
      pid (currentLabel raw) now ok ok'
    simp only [decideNotify, hp, if_false, if_neg, not_false_iff]
    rw [h.1, h.2]
    exact ⟨rfl, rfl⟩

theorem sendNotification_no_lock (st : EngineState) (pid name : String) (now : Nat)
    (ok skip : Bool) (q : String) :
    Event.lockAcquire q ∉ (sendNotification st pid name now ok skip).2 ∧
    Event.lockRelease q ∉ (sendNotification st pid name now ok skip).2 := by
  by_cases h : name = "Person" <;> by_cases hs : skip <;>
    simp [sendNotification, h, hs]

theorem namedSend_no_lock (st : EngineState) (pid lbl : String) (now : Nat)
    (ok : Bool) (pre : List Event) (q : String)
    (h1 : Event.lockAcquire q ∉ pre) (h2 : Event.lockRelease q ∉ pre) :
    Event.lockAcquire q ∉ (namedSend st pid lbl now ok pre).2.2 ∧
    Event.lockRelease q ∉ (namedSend st pid lbl now ok pre).2.2 := by
  have h := sendNotification_no_lock
    { st with cooldowns := setKey pid ⟨now, some lbl⟩ st.cooldowns } pid lbl now ok true q
  simp [namedSend, h1, h2, h.1, h.2]

theorem namedTail_no_lock (st : EngineState) (pid lbl : String) (now : Nat)
    (ok : Bool) (q : String) :
    Event.lockAcquire q ∉ (namedTail st pid lbl now ok).2.2 ∧
    Event.lockRelease q ∉ (namedTail st pid lbl now ok).2.2 := by
  by_cases hpend : (getKey pid st.pending).isSome <;>
    simp only [namedTail, hpend] <;>
    split <;> (try split) <;>
    first
      | (refine namedSend_no_lock _ pid lbl now ok _ q ?_ ?_ <;> simp)
      | simp

theorem genericTail_no_lock (st : EngineState) (pid : String)
    (ls : Option CooldownEntry) (now : Nat) (q : String) :
    Event.lockAcquire q ∉ (genericTail st pid ls now).2.2 ∧
    Event.lockRelease q ∉ (genericTail st pid ls now).2.2 := by
  simp only [genericTail]
  split <;> (try split) <;> simp

theorem lockedBody_no_lock (st : EngineState) (pid : String) (cl : Option String)
    (now : Nat) (ok : Bool) (q : String) :
    Event.lockAcquire q ∉ (lockedBody st pid cl now ok).2.2 ∧
    Event.lockRelease q ∉ (lockedBody st pid cl now ok).2.2 := by
  have haf : ∀ c, Event.lockAcquire q ∉ (afterFace st pid c now ok).2.2 ∧
      Event.lockRelease q ∉ (afterFace st pid c now ok).2.2 := by
    intro c
    simp only [afterFace]
    split
    · simp
    · cases c with
      | none => exact genericTail_no_lock st pid (getKey pid st.cooldowns) now q
      | some lbl => exact namedTail_no_lock st pid lbl now ok q
  cases cl with
  | none => exact haf none
  | some lbl =>
    simp only [lockedBody]
    cases h : getKey lbl st.faceCooldowns with
    | some t =>
      by_cases hw : now - t < PERSON_COOLDOWN_MS
      · simp [hw]
      · simpa [hw] using haf (some lbl)
    | none => exact haf (some lbl)


theorem genericTail_not_named (st : EngineState) (pid : String)
    (ls : Option CooldownEntry) (now : Nat) (l : String) :
    (genericTail st pid ls now).2.1 ≠ Action.sendNamed l := by
  simp only [genericTail]
  split <;> (try split) <;> simp

theorem namedSend_trace (st : EngineState) (pid lbl : String) (now : Nat)
    (ok : Bool) (pre : List Event) :
    (namedSend st pid lbl now ok pre).2.2 =
      pre ++ Event.cooldownWrite pid now (some lbl) ::
        ((if lbl = "Person" then [] else [Event.faceCooldownWrite lbl now]) ++
         [Event.deliveryStart pid lbl, Event.suspend, Event.deliveryEnd pid ok]) := by
  by_cases h : lbl = "Person" <;> simp [namedSend, sendNotification, h]

theorem namedSend_inv (st : EngineState) (pid lbl : String) (now : Nat)
    (ok : Bool) (pre : List Event) (l : String)
    (h : (namedSend st pid lbl now ok pre).2.1 = Action.sendNamed l) : l = lbl := by
  simpa [namedSend] using h.symm

theorem namedTail_named_shape (st : EngineState) (pid lbl : String) (now : Nat)
    (ok : Bool) (l : String)
    (h : (namedTail st pid lbl now ok).2.1 = Action.sendNamed l) :
    l = lbl ∧ ∃ c : Bool, (namedTail st pid lbl now ok).2.2 =
      (if c then [Event.timerCancel pid] else []) ++
      Event.cooldownWrite pid now (some lbl) ::
        ((if lbl = "Person" then [] else [Event.faceCooldownWrite lbl now]) ++
         [Event.deliveryStart pid lbl, Event.suspend, Event.deliveryEnd pid ok]) := by
  revert h
  by_cases hpend : (getKey pid st.pending).isSome
  · simp only [namedTail, hpend, if_true]
    cases hc : getKey pid st.cooldowns with
    | some fresh =>
      intro h
      by_cases hif : now - fresh.timestamp < PERSON_COOLDOWN_MS ∧ fresh.label == some lbl
      · simp [hif] at h
      · simp only [if_neg hif] at h
        cases namedSend_inv _ _ _ _ _ _ _ h
        have hif' : ¬(now - fresh.timestamp < PERSON_COOLDOWN_MS ∧ fresh.label = some lbl) := by
          simpa using hif
        exact ⟨rfl, true, by simp [namedSend_trace, hif']⟩
    | none =>
      intro h
      cases namedSend_inv _ _ _ _ _ _ _ h
      exact ⟨rfl, true, by simp [namedSend_trace]⟩
  · simp only [namedTail, hpend, Bool.false_eq_true, if_false]
    cases hc : getKey pid st.cooldowns with
    | some fresh =>
      intro h
      by_cases hif : now - fresh.timestamp < PERSON_COOLDOWN_MS ∧ fresh.label == some lbl
      · simp [hif] at h
      · simp only [if_neg hif] at h
        cases namedSend_inv _ _ _ _ _ _ _ h
        have hif' : ¬(now - fresh.timestamp < PERSON_COOLDOWN_MS ∧ fresh.label = some lbl) := by
          simpa using hif
        exact ⟨rfl, false, by simp [namedSend_trace, hif']⟩
    | none =>
      intro h
      cases namedSend_inv _ _ _ _ _ _ _ h
      exact ⟨rfl, false, by simp [namedSend_trace]⟩

theorem afterFace_named (st : EngineState) (pid : String) (cl : Option String)
    (now : Nat) (ok : Bool) (l : String)
    (h : (afterFace st pid cl now ok).2.1 = Action.sendNamed l) :
    ∃ lbl, cl = some lbl ∧ afterFace st pid cl now ok = namedTail st pid lbl now ok := by
  revert h
  simp only [afterFace]
  split
  · intro h
    exact absurd h (by simp)
  · cases cl with
    | none =>
      intro h
      exact absurd h (genericTail_not_named _ _ _ _ _)
    | some lbl =>
      intro h
      exact ⟨lbl, rfl, rfl⟩

theorem lockedBody_named (st : EngineState) (pid : String) (cl : Option String)
    (now : Nat) (ok : Bool) (l : String)
    (h : (lockedBody st pid cl now ok).2.1 = Action.sendNamed l) :
    ∃ lbl, cl = some lbl ∧ lockedBody st pid cl now ok = namedTail st pid lbl now ok := by
  have hmain : lockedBody st pid cl now ok = afterFace st pid cl now ok →
      ∃ lbl, cl = some lbl ∧ lockedBody st pid cl now ok = namedTail st pid lbl now ok := by
    intro hred
    rw [hred] at h ⊢
    exact afterFace_named st pid cl now ok l h
  cases cl with
  | none => exact hmain rfl
  | some lbl =>
    cases hfc : getKey lbl st.faceCooldowns with
    | some t =>
      by_cases hw : now - t < PERSON_COOLDOWN_MS
      · have hsup : (lockedBody st pid (some lbl) now ok).2.1 = Action.suppress := by
          simp [lockedBody, hfc, hw]
        rw [hsup] at h
        exact absurd h (by simp)
      · exact hmain (by simp [lockedBody, hfc, hw])
    | none => exact hmain (by simp [lockedBody, hfc])


theorem decideNotify_unlocked (st : EngineState) (pid : String) (raw : Option String)
    (now : Nat) (ok : Bool) (hp : pid ∉ st.processing) :
    (decideNotify st pid raw now ok).2.1 =
      (lockedBody { st with processing := pid :: st.processing } pid (currentLabel raw) now ok).2.1 ∧
    (decideNotify st pid raw now ok).2.2 =
      Event.lockAcquire pid ::
        (lockedBody { st with processing := pid :: st.processing } pid (currentLabel raw) now ok).2.2 ++
        [Event.lockRelease pid] := by
  simp [decideNotify, hp]

theorem decideNotify_locked_suppress (st : EngineState) (pid : String) (raw : Option String)
    (now : Nat) (ok : Bool) (hp : pid ∈ st.processing) :
    decideNotify st pid raw now ok = (st, Action.suppress, []) := by
  simp [decideNotify, hp]

theorem fireBuffer_no_lock (st : EngineState) (pid : String) (now : Nat) (ok : Bool) :
    (fireBufferIfPending st pid now ok).1.processing = st.processing ∧
    ∀ q, Event.lockAcquire q ∉ (fireBufferIfPending st pid now ok).2 ∧
         Event.lockRelease q ∉ (fireBufferIfPending st pid now ok).2 := by
  simp only [fireBufferIfPending, bufferTimerCallback]
  split
  · split
    · split <;> simp [sendNotification]
    · simp [sendNotification]
  · simp

theorem genericTail_face (st : EngineState) (pid : String)
    (ls : Option CooldownEntry) (now : Nat) :
    (genericTail st pid ls now).1.faceCooldowns = st.faceCooldowns ∧
    (∀ l, (genericTail st pid ls now).2.1 ≠ Action.sendNamed l) ∧
    (∀ l t, Event.faceCooldownWrite l t ∉ (genericTail st pid ls now).2.2) := by
  simp only [genericTail]
  split <;> (try split) <;> simp

theorem decideNotify_generic_face (st : EngineState) (pid : String) (raw : Option String)
    (now : Nat) (ok : Bool) (hcl : currentLabel raw = none) :
    (decideNotify st pid raw now ok).1.faceCooldowns = st.faceCooldowns ∧
    (∀ l, (decideNotify st pid raw now ok).2.1 ≠ Action.sendNamed l) ∧
    (∀ l t, Event.faceCooldownWrite l t ∉ (decideNotify st pid raw now ok).2.2) := by
  by_cases hp : pid ∈ st.processing
  · simp [decideNotify, hp]
  · have hred : lockedBody { st with processing := pid :: st.processing } pid
        none now ok =
        afterFace { st with processing := pid :: st.processing } pid none now ok := rfl
    have hg := genericTail_face { st with processing := pid :: st.processing } pid
      (getKey pid st.cooldowns) now
    simp only [decideNotify, hp, if_false, if_neg, not_false_iff, hcl, hred, afterFace]
    split
    · simp
    · refine ⟨hg.1, ?_, ?_⟩
      · intro l
        exact hg.2.1 l
      · intro l t
        simp [hg.2.2 l t]

theorem fireBuffer_face (st : EngineState) (pid : String) (now : Nat) (ok : Bool) :
    (fireBufferIfPending st pid now ok).1.faceCooldowns = st.faceCooldowns ∧
    (∀ l t, Event.faceCooldownWrite l t ∉ (fireBufferIfPending st pid now ok).2) := by
  simp only [fireBufferIfPending, bufferTimerCallback]
  split
  · split
    · split <;> simp [sendNotification]
    · simp [sendNotification]
  · simp


/-- Engine-wide state seen by `release` (lines 1054-1088): the shared maps
plus the module-level `instanceCount` (line 610).  The cleanup intervals
are irrelevant to the claims and not modelled. -/
structure SysState where
  engine : EngineState
  instanceCount : Int
  deriving Repr, DecidableEq

/-- Lines 1054-1088, `ListenerMixin.release`: remove the listener and the
local interval (not modelled), decrement `instanceCount`, and only when it
reaches zero cancel all pending timers and clear the four global maps. -/
def release (s : SysState) : SysState :=
  let n := s.instanceCount - 1
  if n = 0 then { engine := initState, instanceCount := n }
  else { engine := s.engine, instanceCount := n }

/-- PERSON_THRESHOLD of line 697. -/
def PERSON_THRESHOLD : ℚ := 8/10

/-- FACE_THRESHOLD of line 698. -/
def FACE_THRESHOLD : ℚ := 7/10

/-- Bounding box `[x, y, width, height]`. -/
structure BoundingBox where
  x : ℚ
  y : ℚ
  w : ℚ
  h : ℚ
  deriving Repr, DecidableEq

/-- One detection of the incoming event, before any filtering. -/
structure RawDetection where
  className : String
  score : ℚ
  label : Option String
  boundingBox : Option BoundingBox
  deriving Repr, DecidableEq

/-- Lines 700-703: the class/score filter of the listener. -/
def passesThreshold (d : RawDetection) : Bool :=
  (d.className == "person" && decide (PERSON_THRESHOLD ≤ d.score)) ||
  (d.className == "face" && decide (FACE_THRESHOLD ≤ d.score))

/-- Line 745: faces eligible to donate their label (`className === 'face'
&& label && label !== 'face'`); note this list is drawn from the raw,
unfiltered detections. -/
def isLabeledFace (d : RawDetection) : Bool :=
  d.className == "face" && jsTruthy d.label && d.label != some "face"

/-- Lines 760-767: the face center lies inside the person box. -/
def faceInsideBox (f p : BoundingBox) : Bool :=
  let cx := f.x + f.w / 2
  let cy := f.y + f.h / 2
  decide (p.x ≤ cx) && decide (cx ≤ p.x + p.w) &&
  decide (p.y ≤ cy) && decide (cy ≤ p.y + p.h)

/-- Lines 748-774: propagate the label of the first matching face onto a
person detection. -/
def propagateLabel (faces : List RawDetection) (person : RawDetection) : RawDetection :=
  match person.boundingBox with
  | none => person
  | some pb =>
    match faces.find? (fun f =>
        match f.boundingBox with
        | some fb => faceInsideBox fb pb
        | none => false) with
    | some bestFace => { person with label := bestFace.label }
    | none => person

/-- Lines 744-775: the propagation pass over the filtered detections. -/
def propagateLabels (all persons : List RawDetection) : List RawDetection :=
  let faces := all.filter isLabeledFace
  if faces.isEmpty then persons
  else persons.map (propagateLabel faces)

/-- Lines 696-803: the part of the listener callback that builds the ReID
request.  `none` means the handler returns before any snapshot fetch, ReID
call, or state change (line 722). -/
def reidCall (ds : List RawDetection) : Option (List RawDetection) :=
  let persons := ds.filter passesThreshold
  if persons.isEmpty then none
  else some (propagateLabels ds persons)

theorem propagateLabel_preserves (faces : List RawDetection) (p : RawDetection) :
    (propagateLabel faces p).className = p.className ∧
    (propagateLabel faces p).score = p.score := by
  simp only [propagateLabel]
  split
  · exact ⟨rfl, rfl⟩
  · split <;> exact ⟨rfl, rfl⟩

theorem passesThreshold_iff (d : RawDetection) :
    passesThreshold d = true ↔
      (d.className = "person" ∧ PERSON_THRESHOLD ≤ d.score) ∨
      (d.className = "face" ∧ FACE_THRESHOLD ≤ d.score) := by
  simp [passesThreshold]


/-- Helper used by C3: with a record inside the window carrying the
identical label, the decision is Suppress. -/
theorem decideNotify_samelabel_suppress (st : EngineState) (pid : String)
    (raw : Option String) (now : Nat) (ok : Bool) (l : String) (e : CooldownEntry)
    (hp : pid ∉ st.processing)
    (hcl : currentLabel raw = some l)
    (hcool : getKey pid st.cooldowns = some e)
    (hwin : now - e.timestamp < PERSON_COOLDOWN_MS)
    (hlab : e.label = some l) :
    (decideNotify st pid raw now ok).2.1 = Action.suppress := by
  obtain ⟨hne, -, -⟩ := currentLabel_valid hcl
  simp only [decideNotify, hp, if_neg, lockedBody, hcl]
  cases hfc : getKey l st.faceCooldowns with
  | some t =>
    by_cases hw : now - t < PERSON_COOLDOWN_MS
    · simp [hp, hfc, hw]
    · simp [hp, hfc, hw, afterFace, hcool, cooldownGateBlocks, hwin, hlab,
        jsTruthy, labelFalsy, hne]
  | none =>
    simp [hp, hfc, afterFace, hcool, cooldownGateBlocks, hwin, hlab,
      jsTruthy, labelFalsy, hne]

/-- Helper used by C7: the state of the buffer-timer step does not depend
on delivery success. -/
theorem fireBuffer_ok_irrel (st : EngineState) (pid : String) (now : Nat)
    (ok ok' : Bool) :
    (fireBufferIfPending st pid now ok).1 = (fireBufferIfPending st pid now ok').1 := by
  simp only [fireBufferIfPending, bufferTimerCallback]
  split
  · split
    · split <;> rfl
    · rfl
  · rfl

/-- C1, counterexample: on a labeled detection from the empty state, the
trace of the decision contains a delivery start at position 3 while the
ProcessingLock of the personId is held, refuting "the personId is never in
the ProcessingLock set while the asynchronous delivery is in flight". -/
theorem claim_c1_counterexample :
    ¬ lockFreeDelivery (decideNotify initState "p1" (some "Alice") 0 true).2.2 := by
  intro h
  have h3 := h 3 "p1" "Alice" (by decide)
  exact absurd h3 (by decide)

/-- C1 (amended): the ProcessingLock is acquired at the start of the
decision and released in the `finally` at its very end; for a labeled
detection that sends, the awaited delivery starts strictly between the
acquire and the release, so the lock IS held while named delivery is in
flight.  Only the buffered generic delivery (the timer callback) runs
outside the lock: it neither touches the processing set nor emits any lock
event. -/
theorem claim_c1 :
    (∀ (st : EngineState) (pid : String) (raw : Option String) (now : Nat)
        (ok : Bool) (l : String),
      (decideNotify st pid raw now ok).2.1 = Action.sendNamed l →
      ∃ mid, (decideNotify st pid raw now ok).2.2 =
          Event.lockAcquire pid :: mid ++ [Event.lockRelease pid] ∧
        Event.deliveryStart pid l ∈ mid ∧
        Event.lockRelease pid ∉ mid ∧ Event.lockAcquire pid ∉ mid) ∧
    (∀ (st : EngineState) (pid : String) (now : Nat) (ok : Bool),
      (fireBufferIfPending st pid now ok).1.processing = st.processing ∧
      ∀ q, Event.lockAcquire q ∉ (fireBufferIfPending st pid now ok).2 ∧
           Event.lockRelease q ∉ (fireBufferIfPending st pid now ok).2) := by
  constructor
  · intro st pid raw now ok l h
    by_cases hp : pid ∈ st.processing
    · rw [decideNotify_locked_suppress st pid raw now ok hp] at h
      exact absurd h (by simp)
    · obtain ⟨hact, htr⟩ := decideNotify_unlocked st pid raw now ok hp
      rw [hact] at h
      obtain ⟨lbl, hcl, heq⟩ := lockedBody_named _ pid _ now ok l h
      rw [heq] at h htr
      obtain ⟨hl, c, hshape⟩ := namedTail_named_shape _ pid lbl now ok l h
      subst hl
      refine ⟨(namedTail { st with processing := pid :: st.processing } pid l now ok).2.2,
        htr, ?_, (namedTail_no_lock _ pid l now ok pid).2,
        (namedTail_no_lock _ pid l now ok pid).1⟩
      rw [hshape]
      simp
  · exact fun st pid now ok => fireBuffer_no_lock st pid now ok

/-- C1 witness. -/
theorem claim_c1_witness :
    ∃ mid, (decideNotify initState "p1" (some "Alice") 0 true).2.2 =
        Event.lockAcquire "p1" :: mid ++ [Event.lockRelease "p1"] ∧
      Event.deliveryStart "p1" "Alice" ∈ mid ∧
      Event.lockRelease "p1" ∉ mid ∧ Event.lockAcquire "p1" ∉ mid :=
  claim_c1.1 initState "p1" (some "Alice") 0 true "Alice" (by decide)

/-- C2: a labeled decision whose label has a FaceCooldownRecord entry
within the window is suppressed with no state write and no delivery (the
whole state is returned unchanged); and from the empty state two different
personIds both labeled "Alice" within the window produce exactly one
notification in total, the first one proceeding because the label had
never been recorded. -/
theorem claim_c2 :
    (∀ (st : EngineState) (pid : String) (raw : Option String) (now : Nat)
        (ok : Bool) (l : String) (t : Nat),
      pid ∉ st.processing →
      currentLabel raw = some l →
      getKey l st.faceCooldowns = some t →
      now - t < PERSON_COOLDOWN_MS →
      decideNotify st pid raw now ok =
        (st, Action.suppress, [Event.lockAcquire pid, Event.lockRelease pid])) ∧
    (∀ (p1 p2 : String) (t0 t1 : Nat), p1 ≠ p2 → t1 - t0 < PERSON_COOLDOWN_MS →
      (decideNotify initState p1 (some "Alice") t0 true).2.1 = Action.sendNamed "Alice" ∧
      deliveries (runSys initState
        [SysEvent.detection p1 (some "Alice") t0,
         SysEvent.detection p2 (some "Alice") t1]).2 = [(p1, "Alice")]) := by
  constructor
  · intro st pid raw now ok l t hp hcl hface hwin
    simp [decideNotify, hp, lockedBody, hcl, hface, hwin]
  · intro p1 p2 t0 t1 _hne hwin
    constructor
    · simp [decideNotify, initState, lockedBody, currentLabel, afterFace,
        namedTail, namedSend, sendNotification, getKey, genericTail]
    · simp [runSys, sysStep, decideNotify, initState, lockedBody, currentLabel,
        afterFace, namedTail, namedSend, sendNotification, getKey, genericTail,
        hwin, deliveries]

/-- C2 witness. -/
theorem claim_c2_witness :
    decideNotify ⟨[], [("Alice", 0)], [], []⟩ "w2" (some "Alice") 1000 true =
      (⟨[], [("Alice", 0)], [], []⟩, Action.suppress,
        [Event.lockAcquire "w2", Event.lockRelease "w2"]) ∧
    ((decideNotify initState "wa" (some "Alice") 0 true).2.1 = Action.sendNamed "Alice" ∧
      deliveries (runSys initState
        [SysEvent.detection "wa" (some "Alice") 0,
         SysEvent.detection "wb" (some "Alice") 60000]).2 = [("wa", "Alice")]) :=
  ⟨claim_c2.1 ⟨[], [("Alice", 0)], [], []⟩ "w2" (some "Alice") 1000 true "Alice" 0
      (by simp) rfl rfl (by decide),
   claim_c2.2 "wa" "wb" 0 60000 (by decide) (by decide)⟩

/-- C3: for a labeled decision with a CooldownRecord inside the window,
passage only happens on an upgrade (prior label null) or a label change
(prior label different); with the identical prior label the decision is
Suppress. -/
theorem claim_c3 : ∀ (st : EngineState) (pid : String) (raw : Option String)
    (now : Nat) (ok : Bool) (l : String) (e : CooldownEntry),
    pid ∉ st.processing →
    currentLabel raw = some l →
    getKey pid st.cooldowns = some e →
    now - e.timestamp < PERSON_COOLDOWN_MS →
    (e.label = some l → (decideNotify st pid raw now ok).2.1 = Action.suppress) ∧
    ((decideNotify st pid raw now ok).2.1 ≠ Action.suppress →
      e.label = none ∨ ∃ l', e.label = some l' ∧ l' ≠ l) := by
  intro st pid raw now ok l e hp hcl hcool hwin
  refine ⟨fun hlab => decideNotify_samelabel_suppress st pid raw now ok l e
    hp hcl hcool hwin hlab, ?_⟩
  intro hns
  cases hlab : e.label with
  | none => exact Or.inl rfl
  | some l' =>
    by_cases hll : l' = l
    · subst hll
      exact absurd (decideNotify_samelabel_suppress st pid raw now ok l' e
        hp hcl hcool hwin hlab) hns
    · exact Or.inr ⟨l', rfl, hll⟩

/-- C3 witness. -/
theorem claim_c3_witness :
    (((⟨0, some "Alice"⟩ : CooldownEntry).label = some "Alice" →
      (decideNotify ⟨[("w3", ⟨0, some "Alice"⟩)], [], [], []⟩ "w3" (some "Alice")
        1000 true).2.1 = Action.suppress) ∧
    ((decideNotify ⟨[("w3", ⟨0, some "Alice"⟩)], [], [], []⟩ "w3" (some "Alice")
        1000 true).2.1 ≠ Action.suppress →
      (⟨0, some "Alice"⟩ : CooldownEntry).label = none ∨
      ∃ l', (⟨0, some "Alice"⟩ : CooldownEntry).label = some l' ∧ l' ≠ "Alice")) :=
  claim_c3 ⟨[("w3", ⟨0, some "Alice"⟩)], [], [], []⟩ "w3" (some "Alice") 1000 true
    "Alice" ⟨0, some "Alice"⟩ (by simp) rfl rfl (by decide)

/-- C4: from the empty state, a generic detection for `pid` starts a
buffer; a labeled detection for the same `pid` arriving before the buffer
fires cancels the scheduled task (a `timerCancel` is emitted) and removes
the PendingBuffer entry; the whole run — generic, then named, then the
timer coming due — delivers exactly the one named notification, and any
later timer firing for `pid` is a no-op. -/
theorem claim_c4 :
    ∀ (pid : String) (raw : Option String) (l : String) (t0 t1 t2 : Nat) (ok : Bool),
    currentLabel raw = some l →
    Event.timerCancel pid ∈
      (decideNotify (decideNotify initState pid none t0 true).1 pid raw t1 true).2.2 ∧
    getKey pid
      (decideNotify (decideNotify initState pid none t0 true).1 pid raw t1 true).1.pending
      = none ∧
    deliveries (runSys initState
      [SysEvent.detection pid none t0, SysEvent.detection pid raw t1,
       SysEvent.timerFire pid (t0 + BUFFER_DELAY_MS)]).2 = [(pid, l)] ∧
    fireBufferIfPending (runSys initState
      [SysEvent.detection pid none t0, SysEvent.detection pid raw t1,
       SysEvent.timerFire pid (t0 + BUFFER_DELAY_MS)]).1 pid t2 ok =
      ((runSys initState
        [SysEvent.detection pid none t0, SysEvent.detection pid raw t1,
         SysEvent.timerFire pid (t0 + BUFFER_DELAY_MS)]).1, []) := by
  intro pid raw l t0 t1 t2 ok hcl
  have hnone : currentLabel none = none := rfl
  by_cases hP : l = "Person" <;>
    simp [runSys, sysStep, decideNotify, initState, lockedBody, afterFace,
      namedTail, namedSend, sendNotification, getKey, setKey, delKey, genericTail,
      deliveries, fireBufferIfPending, hcl, hnone, hP]

/-- C4 witness. -/
theorem claim_c4_witness :
    Event.timerCancel "w4" ∈
      (decideNotify (decideNotify initState "w4" none 0 true).1 "w4" (some "Alice")
        2000 true).2.2 ∧
    getKey "w4"
      (decideNotify (decideNotify initState "w4" none 0 true).1 "w4" (some "Alice")
        2000 true).1.pending = none ∧
    deliveries (runSys initState
      [SysEvent.detection "w4" none 0, SysEvent.detection "w4" (some "Alice") 2000,
       SysEvent.timerFire "w4" (0 + BUFFER_DELAY_MS)]).2 = [("w4", "Alice")] ∧
    fireBufferIfPending (runSys initState
      [SysEvent.detection "w4" none 0, SysEvent.detection "w4" (some "Alice") 2000,
       SysEvent.timerFire "w4" (0 + BUFFER_DELAY_MS)]).1 "w4" 99999 true =
      ((runSys initState
        [SysEvent.detection "w4" none 0, SysEvent.detection "w4" (some "Alice") 2000,
         SysEvent.timerFire "w4" (0 + BUFFER_DELAY_MS)]).1, []) :=
  claim_c4 "w4" (some "Alice") "Alice" 0 2000 99999 true rfl

/-- C5, counterexample: a detection labeled with the literal string
"Person" (which the case-sensitive check of line 854 does not filter)
yields decision SendNamed, yet `sendNotification` skips the
FaceCooldownRecord write because the name collides with the generic
sentinel: the final face-cooldown map is empty and the trace holds no
face-cooldown write, refuting "CooldownRecord and FaceCooldownRecord are
both written before the send". -/
theorem claim_c5_counterexample :
    (decideNotify initState "p1" (some "Person") 0 true).2.1 = Action.sendNamed "Person" ∧
    (decideNotify initState "p1" (some "Person") 0 true).1.faceCooldowns = [] ∧
    (decideNotify initState "p1" (some "Person") 0 true).2.2 =
      [Event.lockAcquire "p1", Event.cooldownWrite "p1" 0 (some "Person"),
       Event.deliveryStart "p1" "Person", Event.suspend, Event.deliveryEnd "p1" true,
       Event.lockRelease "p1"] := by
  decide

/-- C5 (amended): whenever the decision is SendNamed with a label other
than the literal "Person", the CooldownRecord write and the
FaceCooldownRecord write occur in the trace immediately before the
delivery start, with no suspension point anywhere earlier in the decision;
a label equal to the sentinel "Person" skips the face-cooldown write. -/
theorem claim_c5 :
    ∀ (st : EngineState) (pid : String) (raw : Option String) (now : Nat)
      (ok : Bool) (l : String),
    (decideNotify st pid raw now ok).2.1 = Action.sendNamed l → l ≠ "Person" →
    ∃ pre post, (decideNotify st pid raw now ok).2.2 =
        pre ++ Event.cooldownWrite pid now (some l) ::
          Event.faceCooldownWrite l now :: Event.deliveryStart pid l :: post ∧
      Event.suspend ∉ pre := by
  intro st pid raw now ok l h hP
  by_cases hp : pid ∈ st.processing
  · rw [decideNotify_locked_suppress st pid raw now ok hp] at h
    exact absurd h (by simp)
  · obtain ⟨hact, htr⟩ := decideNotify_unlocked st pid raw now ok hp
    rw [hact] at h
    obtain ⟨lbl, hcl, heq⟩ := lockedBody_named _ pid _ now ok l h
    rw [heq] at h htr
    obtain ⟨hl, c, hshape⟩ := namedTail_named_shape _ pid lbl now ok l h
    subst hl
    rw [if_neg hP] at hshape
    refine ⟨Event.lockAcquire pid :: (if c then [Event.timerCancel pid] else []),
      [Event.suspend, Event.deliveryEnd pid ok, Event.lockRelease pid], ?_, ?_⟩
    · rw [htr, hshape]
      simp
    · cases c <;> simp

/-- C5 witness. -/
theorem claim_c5_witness :
    ∃ pre post, (decideNotify initState "w5" (some "Alice") 0 true).2.2 =
        pre ++ Event.cooldownWrite "w5" 0 (some "Alice") ::
          Event.faceCooldownWrite "Alice" 0 :: Event.deliveryStart "w5" "Alice" :: post ∧
      Event.suspend ∉ pre :=
  claim_c5 initState "w5" (some "Alice") 0 true "Alice" (by decide) (by decide)

/-- C6: at the race re-check of the named branch, a CooldownRecord within
the window already holding the identical label makes the tail return
Suppress: no delivery occurs in its trace and the cooldown map is left
untouched. -/
theorem claim_c6 :
    ∀ (st : EngineState) (pid l : String) (now : Nat) (ok : Bool) (e : CooldownEntry),
    getKey pid st.cooldowns = some e →
    now - e.timestamp < PERSON_COOLDOWN_MS →
    e.label = some l →
    (namedTail st pid l now ok).2.1 = Action.suppress ∧
    deliveries (namedTail st pid l now ok).2.2 = [] ∧
    (namedTail st pid l now ok).1.cooldowns = st.cooldowns := by
  intro st pid l now ok e hcool hwin hlab
  by_cases hpend : (getKey pid st.pending).isSome
  · simp [namedTail, hpend, hcool, hwin, hlab, deliveries]
  · simp [namedTail, hpend, hcool, hwin, hlab, deliveries]

/-- C6 witness. -/
theorem claim_c6_witness :
    (namedTail ⟨[("w6", ⟨0, some "Alice"⟩)], [], [], []⟩ "w6" "Alice" 1000 true).2.1
      = Action.suppress ∧
    deliveries (namedTail ⟨[("w6", ⟨0, some "Alice"⟩)], [], [], []⟩ "w6" "Alice"
      1000 true).2.2 = [] ∧
    (namedTail ⟨[("w6", ⟨0, some "Alice"⟩)], [], [], []⟩ "w6" "Alice" 1000 true).1.cooldowns
      = (⟨[("w6", ⟨0, some "Alice"⟩)], [], [], []⟩ : EngineState).cooldowns :=
  claim_c6 ⟨[("w6", ⟨0, some "Alice"⟩)], [], [], []⟩ "w6" "Alice" 1000 true
    ⟨0, some "Alice"⟩ rfl (by decide) rfl

/-- C7: delivery failure is absorbed: the engine state after a failed
delivery equals the state after a successful one — at the level of
`sendNotification`, of the whole decision, and of the buffer-timer step —
the action taken is the same, and `sendNotification` attempts delivery
exactly once whether it succeeds or fails (no retry, no rollback). -/
theorem claim_c7 :
    ∀ (st : EngineState) (pid name : String) (now : Nat) (skip : Bool)
      (raw : Option String),
    (sendNotification st pid name now false skip).1 =
      (sendNotification st pid name now true skip).1 ∧
    deliveries (sendNotification st pid name now false skip).2 = [(pid, name)] ∧
    deliveries (sendNotification st pid name now true skip).2 = [(pid, name)] ∧
    (decideNotify st pid raw now false).1 = (decideNotify st pid raw now true).1 ∧
    (decideNotify st pid raw now false).2.1 = (decideNotify st pid raw now true).2.1 ∧
    (fireBufferIfPending st pid now false).1 = (fireBufferIfPending st pid now true).1 :=
  fun st pid name now skip raw =>
    ⟨sendNotification_ok_irrel st pid name now false true skip,
     sendNotification_deliveries st pid name now false skip,
     sendNotification_deliveries st pid name now true skip,
     (decideNotify_ok_irrel st pid raw now false true).1,
     (decideNotify_ok_irrel st pid raw now false true).2,
     fireBuffer_ok_irrel st pid now false true⟩

/-- C8, counterexample: releasing one camera listener while another
instance is still alive (`instanceCount` 2) leaves all global state in
place — here a pending buffer survives — refuting "release cancels all
outstanding timers and clears all four maps". -/
theorem claim_c8_counterexample :
    ¬ ∀ s : SysState,
      (release s).engine.cooldowns = [] ∧ (release s).engine.faceCooldowns = [] ∧
      (release s).engine.pending = [] ∧ (release s).engine.processing = [] := by
  intro h
  have hc := (h ⟨⟨[], [], [("p1", ⟨5⟩)], []⟩, 2⟩).2.2.1
  simp [release] at hc

/-- C8 (amended): release decrements the instance counter; only when the
released listener is the last one (counter 1 before the call) are the four
maps cleared and every pending timer cancelled (afterwards a timer firing
is a no-op); otherwise the engine state is left completely untouched. -/
theorem claim_c8 : ∀ s : SysState,
    (s.instanceCount = 1 →
      (release s).engine = initState ∧
      ∀ pid t ok, fireBufferIfPending (release s).engine pid t ok =
        ((release s).engine, [])) ∧
    (s.instanceCount ≠ 1 → (release s).engine = s.engine) := by
  intro s
  constructor
  · intro h1
    have : (release s).engine = initState := by simp [release, h1]
    refine ⟨this, ?_⟩
    intro pid t ok
    rw [this]
    simp [fireBufferIfPending, getKey, initState]
  · intro h1
    have : ¬ s.instanceCount - 1 = 0 := by
      intro hz
      exact h1 (by omega)
    simp [release, this]

/-- C8 witness. -/
theorem claim_c8_witness :
    ((release ⟨⟨[("a", ⟨3, none⟩)], [("Alice", 7)], [("a", ⟨9⟩)], ["a"]⟩, 1⟩).engine
      = initState ∧
     fireBufferIfPending
       (release ⟨⟨[("a", ⟨3, none⟩)], [("Alice", 7)], [("a", ⟨9⟩)], ["a"]⟩, 1⟩).engine
       "a" 10 true =
       ((release ⟨⟨[("a", ⟨3, none⟩)], [("Alice", 7)], [("a", ⟨9⟩)], ["a"]⟩, 1⟩).engine,
        [])) ∧
    (release ⟨⟨[], [], [("p1", ⟨5⟩)], []⟩, 2⟩).engine = ⟨[], [], [("p1", ⟨5⟩)], []⟩ :=
  ⟨⟨((claim_c8 ⟨⟨[("a", ⟨3, none⟩)], [("Alice", 7)], [("a", ⟨9⟩)], ["a"]⟩, 1⟩).1
      (by decide)).1,
    ((claim_c8 ⟨⟨[("a", ⟨3, none⟩)], [("Alice", 7)], [("a", ⟨9⟩)], ["a"]⟩, 1⟩).1
      (by decide)).2 "a" 10 true⟩,
   (claim_c8 ⟨⟨[], [], [("p1", ⟨5⟩)], []⟩, 2⟩).2 (by decide)⟩

/-- C9: a detection whose label is absent or the literal "person" or
"face" has `currentLabel` null, never yields a SendNamed decision, and
neither the decision nor the buffered generic delivery reads or writes any
FaceCooldownRecord entry: the face-cooldown map is returned unchanged and
no face-cooldown write appears in either trace. -/
theorem claim_c9 : ∀ (raw : Option String),
    (raw = none ∨ raw = some "person" ∨ raw = some "face") →
    currentLabel raw = none ∧
    ∀ (st : EngineState) (pid : String) (now : Nat) (ok : Bool),
      (decideNotify st pid raw now ok).1.faceCooldowns = st.faceCooldowns ∧
      (∀ l, (decideNotify st pid raw now ok).2.1 ≠ Action.sendNamed l) ∧
      (∀ l t, Event.faceCooldownWrite l t ∉ (decideNotify st pid raw now ok).2.2) ∧
      (fireBufferIfPending st pid now ok).1.faceCooldowns = st.faceCooldowns ∧
      (∀ l t, Event.faceCooldownWrite l t ∉ (fireBufferIfPending st pid now ok).2) := by
  intro raw hraw
  have hcl : currentLabel raw = none := by
    rcases hraw with rfl | rfl | rfl <;> rfl
  refine ⟨hcl, ?_⟩
  intro st pid now ok
  have hd := decideNotify_generic_face st pid raw now ok hcl
  have hf := fireBuffer_face st pid now ok
  exact ⟨hd.1, hd.2.1, hd.2.2, hf.1, hf.2⟩

/-- C9 witness. -/
theorem claim_c9_witness :
    currentLabel (some "person") = none ∧
    (decideNotify initState "w9" (some "person") 5 true).1.faceCooldowns = [] ∧
    (decideNotify initState "w9" (some "person") 5 true).2.1 ≠ Action.sendNamed "Alice" ∧
    Event.faceCooldownWrite "Alice" 5 ∉
      (decideNotify initState "w9" (some "person") 5 true).2.2 := by
  have h := claim_c9 (some "person") (Or.inr (Or.inl rfl))
  have h2 := h.2 initState "w9" 5 true
  exact ⟨h.1, h2.1, h2.2.1 "Alice", h2.2.2.1 "Alice" 5⟩

/-- C10: the score filter keeps exactly the persons at or above 0.8 and
the faces at or above 0.7; a below-threshold detection is never among the
filtered detections; the ReID request is built exactly when the filtered
list is non-empty, and every entry of its payload stems from an
above-threshold detection (propagation changes labels only). -/
theorem claim_c10 : ∀ ds : List RawDetection,
    (∀ d, d ∈ ds.filter passesThreshold ↔ d ∈ ds ∧
      ((d.className = "person" ∧ PERSON_THRESHOLD ≤ d.score) ∨
       (d.className = "face" ∧ FACE_THRESHOLD ≤ d.score))) ∧
    (reidCall ds = none ↔ ds.filter passesThreshold = []) ∧
    (∀ payload, reidCall ds = some payload → ∀ e ∈ payload,
      (e.className = "person" ∧ PERSON_THRESHOLD ≤ e.score) ∨
      (e.className = "face" ∧ FACE_THRESHOLD ≤ e.score)) := by
  intro ds
  refine ⟨?_, ?_, ?_⟩
  · intro d
    rw [List.mem_filter, passesThreshold_iff]
  · simp [reidCall, List.isEmpty_iff]
  · intro payload hpay e he
    simp only [reidCall] at hpay
    split at hpay
    · cases hpay
    · cases hpay
      revert he
      simp only [propagateLabels]
      split
      · intro he
        have hm := List.mem_filter.mp he
        rw [passesThreshold_iff] at hm
        exact hm.2
      · intro he
        rw [List.mem_map] at he
        obtain ⟨p, hp, rfl⟩ := he
        have hpt := (List.mem_filter.mp hp).2
        rw [passesThreshold_iff] at hpt
        have hpre := propagateLabel_preserves (ds.filter isLabeledFace) p
        rw [hpre.1, hpre.2]
        exact hpt

/-- C10 witness. -/
theorem claim_c10_witness :
    ((⟨"person", 0, none, none⟩ : RawDetection) ∉
      List.filter passesThreshold [⟨"person", 0, none, none⟩]) ∧
    reidCall [⟨"person", 0, none, none⟩] = none := by
  have h := claim_c10 [⟨"person", 0, none, none⟩]
  have hfd : passesThreshold ⟨"person", 0, none, none⟩ = false := by
    simp [passesThreshold]
    norm_num [PERSON_THRESHOLD]
  constructor
  · intro hmem
    exact absurd ((h.1 _).mp hmem).2 (by norm_num [PERSON_THRESHOLD, FACE_THRESHOLD])
  · exact (h.2.1).mpr (by simp [List.filter, hfd])

end SmartNotifier
